import Mathlib

/-!
Verification of the Waybar clock module (`src/modules/clock.cpp`).

The C++ module is embedded shallowly:

* `JVal` models the subset of jsoncpp values the module reads; `Config`
  holds the configuration entries `config_[...]` accessed by the module.
* The civil-calendar arithmetic of the external `date` library
  (`days_from_civil`, `civil_from_days`, `weekday_from_days`,
  `last_day_of_month`, weekday difference) is embedded directly from that
  library's documented algorithms, since the module's observable behaviour
  depends on it.  C++ `/` and `%` on integers truncate toward zero, so the
  embedding uses `Int.tdiv` / `Int.tmod`; the one place where *unsigned*
  wrap-around matters (the trailing-padding computation for right-aligned
  week numbers) is modelled explicitly with `% 4294967296`.
* External services (the timezone database, the locale's weekday
  abbreviations, the locale's first-weekday answer, and the chrono
  formatter used for week-number cells) are injected as function
  parameters, as the spec directs.
* The calendar text generator is embedded as a token emitter
  (`Token`): each `os << ...` of the source appends tokens, and the
  produced string is the rendering of the token list.  The tokens record
  which branch produced them (ordinary day cell vs. "today" cell,
  week-number cell, newline), which is exactly the information the
  claims quantify over.
-/

namespace Clock

/-- Subset of jsoncpp values read by the clock module. -/
inductive JVal where
  | null : JVal
  | jbool : Bool → JVal
  | jint : Int → JVal
  | jstr : String → JVal
  | jarr : List JVal → JVal
  deriving Repr

/-- `Json::Value::isString()`. -/
def JVal.isString : JVal → Bool
  | JVal.jstr _ => true
  | _ => false

/-- `Json::Value::asString()` as used by the module (only called on values
checked with `isString()`, so the other cases are immaterial). -/
def JVal.asString : JVal → String
  | JVal.jstr s => s
  | _ => ""

/-- `Json::Value::isArray()`. -/
def JVal.isArray : JVal → Bool
  | JVal.jarr _ => true
  | _ => false

/-- Elements of an array value (empty for non-arrays). -/
def JVal.elems : JVal → List JVal
  | JVal.jarr xs => xs
  | _ => []

/-- `Json::Value::isInt()`. -/
def JVal.isInt : JVal → Bool
  | JVal.jint _ => true
  | _ => false

/-- `Json::Value::asInt()` as used by the module (guarded by `isInt()`). -/
def JVal.asInt : JVal → Int
  | JVal.jint n => n
  | _ => 0

/-- The configuration entries the clock module reads from `config_`.
A missing key reads as `JVal.null`, as with jsoncpp `operator[]`. -/
structure Config where
  timezones : JVal
  timezone : JVal
  tooltipFormat : JVal
  onScrollCalendar : JVal
  locale : JVal
  formatCalendarWeeks : JVal
  formatCalendar : JVal
  calendarWeeksPos : JVal
  todayFormat : JVal
  formatCalendarWeekdays : JVal
  onScrollUp : JVal
  onScrollDown : JVal
  deriving Repr

/-- A `Config` with every key absent. -/
def Config.nullCfg : Config :=
  { timezones := JVal.null, timezone := JVal.null, tooltipFormat := JVal.null,
    onScrollCalendar := JVal.null, locale := JVal.null,
    formatCalendarWeeks := JVal.null, formatCalendar := JVal.null,
    calendarWeeksPos := JVal.null, todayFormat := JVal.null,
    formatCalendarWeekdays := JVal.null, onScrollUp := JVal.null,
    onScrollDown := JVal.null }

/-- `AModule::SCROLL_DIR` (the values `getScrollDir` can produce). -/
inductive ScrollDir where
  | UP | DOWN | LEFT | RIGHT | NONE
  deriving Repr, DecidableEq

/-- The `WeeksSide` enum local to `calendar_text`. -/
inductive WeeksSide where
  | LEFT | RIGHT | HIDDEN
  deriving Repr, DecidableEq

/-- A civil date, the value of `date::year_month_day`. -/
structure YMD where
  y : Int
  m : Nat
  d : Nat
  deriving Repr, DecidableEq

/- ---------------------------------------------------------------------
Civil-calendar arithmetic of the external `date` library.
--------------------------------------------------------------------- -/

/-- `date::days_from_civil` (Howard Hinnant's algorithm): days since
1970-01-01 of the civil date `y-m-d`.  C++ integer division truncates,
hence `Int.tdiv`. -/
def daysFromCivil (y0 : Int) (m : Nat) (d : Nat) : Int :=
  let y : Int := y0 - (if m ≤ 2 then 1 else 0)
  let era : Int := (if 0 ≤ y then y else y - 399).tdiv 400
  let yoe : Int := y - era * 400
  let doy : Int := (153 * ((m : Int) + (if 2 < m then -3 else 9)) + 2).tdiv 5 + (d : Int) - 1
  let doe : Int := yoe * 365 + yoe.tdiv 4 - yoe.tdiv 100 + doy
  era * 146097 + doe - 719468

/-- `date::civil_from_days` (Howard Hinnant's algorithm): inverse of
`daysFromCivil`. -/
def civilFromDays (z0 : Int) : YMD :=
  let z : Int := z0 + 719468
  let era : Int := (if 0 ≤ z then z else z - 146096).tdiv 146097
  let doe : Int := z - era * 146097
  let yoe : Int := (doe - doe.tdiv 1460 + doe.tdiv 36524 - doe.tdiv 146096).tdiv 365
  let y : Int := yoe + era * 400
  let doy : Int := doe - (365 * yoe + yoe.tdiv 4 - yoe.tdiv 100)
  let mp : Int := (5 * doy + 2).tdiv 153
  let d : Int := doy - (153 * mp + 2).tdiv 5 + 1
  let m : Int := mp + (if mp < 10 then 3 else -9)
  ⟨y + (if m ≤ 2 then 1 else 0), m.toNat, d.toNat⟩

/-- `date::weekday_from_days`: weekday (0 = Sunday .. 6 = Saturday) of a
day count since the epoch.  Mirrors the library's
`z >= -4 ? (z+4) % 7 : (z+5) % 7 + 6` with truncating `%`. -/
def weekdayFromDays (z : Int) : Nat :=
  (if -4 ≤ z then (z + 4).tmod 7 else (z + 5).tmod 7 + 6).toNat

/-- Leap-year test of the `date` library (`y % 4 == 0 && (y % 100 != 0 ||
y % 400 == 0)`). -/
def isLeap (y : Int) : Bool :=
  y.tmod 4 = 0 && (y.tmod 100 ≠ 0 || y.tmod 400 = 0)

/-- `date::last_day_of_month`: day count of the last day of month `m` of
year `y` (the library's table lookup plus the February leap case);
this is what `(ym / date::literals::last).day()` evaluates to. -/
def lastDayOfMonth (y : Int) (m : Nat) : Nat :=
  if m = 2 then (if isLeap y then 29 else 28)
  else if m = 4 ∨ m = 6 ∨ m = 9 ∨ m = 11 then 30
  else 31

/-- `date::weekday` difference `(wd - first_dow).count()`: number of days
in `[0,6]` from `first` forward to `wd` (the library computes it with
unsigned wrap; for encodings `< 7` it equals the value below). -/
def weekdayDiff (wd first : Nat) : Nat := (wd + 7 - first) % 7

/- ---------------------------------------------------------------------
String helpers used by the module.
--------------------------------------------------------------------- -/

/-- A run of `n` spaces (`std::string(n, ' ')`). -/
def spaces (n : Nat) : String := String.mk (List.replicate n ' ')

/-- Does `pat` occur at the head of the list? -/
def startsWithL : List Char → List Char → Bool
  | [], _ => true
  | _ :: _, [] => false
  | p :: ps, c :: cs => p = c && startsWithL ps cs

/-- Replace every non-overlapping occurrence of `pat` (non-empty),
scanning left to right.  The fuel is the input length, enough because
every step consumes at least one character. -/
def replaceLoop (pat rep : List Char) : Nat → List Char → List Char
  | 0, s => s
  | _ + 1, [] => []
  | fuel + 1, c :: cs =>
    if startsWithL pat (c :: cs) then rep ++ replaceLoop pat rep fuel ((c :: cs).drop pat.length)
    else c :: replaceLoop pat rep fuel cs

/-- `std::regex_replace(s, pat-literal, rep)` / `String::replace`:
replace all occurrences of a literal pattern (the empty pattern replaces
nothing, as in the standard library). -/
def replaceAll (s pat rep : String) : String :=
  if pat = "" then s
  else String.mk (replaceLoop pat.data rep.data (s.length + 1) s.data)

/-- `fmt::format(f, arg)` for a format string that uses the plain
placeholder: every occurrence of the placeholder is replaced by `arg`
(the module's format strings carry a single interpolation point). -/
def fmtApply (f arg : String) : String := replaceAll f "\x7b\x7d" arg

/-- `date::format("%e", d)`: day of month, space padded to width 2. -/
def fmtE (d : Nat) : String := if d < 10 then " " ++ toString d else toString d

/-- Substring search, fuel-based. -/
def containsSubL (pat : List Char) : Nat → List Char → Bool
  | 0, _ => false
  | fuel + 1, s =>
    startsWithL pat s ||
      (match s with
       | [] => false
       | _ :: cs => containsSubL pat fuel cs)

/-- Substring containment test (`std::string::find(pat) != npos`). -/
def containsSub (s pat : String) : Bool := containsSubL pat.data (s.length + 1) s.data

/-- `std::isspace` in the default locale. -/
def isSpaceByte (c : Char) : Bool :=
  c = ' ' || c = '\t' || c = '\n' || c = '\x0b' || c = '\x0c' || c = '\r'

/-- The `std::remove_if`/`erase` over `std::isspace` applied to the
tooltip format before the placeholder search. -/
def removeSpaces (s : String) : String :=
  String.mk (s.data.filter (fun c => !isSpaceByte c))

/-- Characters after the last closing brace of a list (used by the greedy
regex model below). -/
def afterLastBrace (cs : List Char) : List Char :=
  (cs.reverse.takeWhile (fun c => c ≠ '\x7d')).reverse

/-- Model of `std::regex_replace(s, regex "</?[^>]+>|\x7b.*\x7d", "")`:
removes markup tags and the (greedy) brace group; the module only applies
it to single-line format strings.  Fuel-based recursion; the fuel is the
string length, enough since every step consumes at least one character. -/
def stripTagsAux : Nat → List Char → List Char
  | 0, cs => cs
  | _ + 1, [] => []
  | fuel + 1, c :: cs =>
    if c = '<' then
      let body := if cs.head? = some '/' then cs.tail else cs
      let pre := body.takeWhile (fun x => x ≠ '>')
      if pre.length = 0 ∨ pre.length = body.length then c :: stripTagsAux fuel cs
      else stripTagsAux fuel (body.drop (pre.length + 1))
    else if c = '\x7b' then
      if '\x7d' ∈ cs then stripTagsAux fuel (afterLastBrace cs)
      else c :: stripTagsAux fuel cs
    else c :: stripTagsAux fuel cs

/-- Length of a week-number format string after stripping markup and the
placeholder (`fmt_weeks_left_pad_`). -/
def stripLen (s : String) : Nat := (stripTagsAux (s.length + 1) s.data).length

/- ---------------------------------------------------------------------
Construction (`waybar::modules::Clock::Clock`).
--------------------------------------------------------------------- -/

/-- Modelled from the spec: the tooltip calendar placeholder name
(`kCalendarPlaceholder`, declared in the module's header, which is not
part of the sources under verification). -/
def kCalendarPlaceholder : String := "calendar"

/-- Modelled from the spec: the tooltip multi-zone listing placeholder
name (`KTimezonedTimeListPlaceholder`, declared in the module's
header). -/
def kTimezonedTimeListPlaceholder : String := "timezoned_time_list"

/-- `date::locate_zone` against an injected timezone database `db`:
returns the zone, or — per the external library's documented contract —
throws `std::runtime_error` (modelled as `Except.error` carrying the
name) when no zone with that name can be found. -/
def locate_zone (db : String → Option String) (name : String) : Except String String :=
  match db name with
  | some z => Except.ok z
  | none => Except.error name

/-- One entry of the `config_["timezones"]` array: non-string or empty
entries push `nullptr` (here `none`); any other entry is resolved with
`locate_zone`, whose failure propagates. -/
def parseZoneEntry (db : String → Option String) (j : JVal) : Except String (Option String) :=
  if !j.isString || j.asString = "" then Except.ok none
  else (locate_zone db j.asString).map some

/-- The `for` loop over the `timezones` array: each entry is parsed and
pushed; a thrown `locate_zone` error aborts the loop (and construction). -/
def parseZoneList (db : String → Option String) : List JVal → Except String (List (Option String))
  | [] => Except.ok []
  | j :: js =>
    match parseZoneEntry db j with
    | Except.error e => Except.error e
    | Except.ok z =>
      match parseZoneList db js with
      | Except.error e => Except.error e
      | Except.ok zs => Except.ok (z :: zs)

/-- The timezone-list construction logic of the constructor (lines
24-34): an array `timezones` is parsed entry by entry; otherwise a
non-empty string `timezone` is resolved; otherwise the list is empty. -/
def parseTimezones (db : String → Option String) (cfg : Config) :
    Except String (List (Option String)) :=
  if cfg.timezones.isArray && !cfg.timezones.elems.isEmpty then
    parseZoneList db cfg.timezones.elems
  else if cfg.timezone.isString && cfg.timezone.asString ≠ "" then
    (locate_zone db cfg.timezone.asString).map (fun z => [some z])
  else Except.ok []

/-- The mutable state of the widget relevant to the claims; field names
follow the C++ members. -/
structure ClockState where
  time_zones_ : List (Option String)
  current_time_zone_idx_ : Nat
  is_calendar_in_tooltip_ : Bool
  is_timezoned_list_in_tooltip_ : Bool
  calendar_shift_init_ : Int
  calendar_shift_ : Int
  fmt_str_weeks_ : String
  fmt_weeks_left_pad_ : Nat
  fmt_str_calendar_ : String
  calendar_cached_ymd_ : Option YMD
  calendar_cached_text_ : String
  deriving Repr, DecidableEq

/-- The constructor `Clock::Clock`.  `db` is the timezone database and
`firstDow` the weekday returned by `first_day_of_week()` (an injected
locale service; `0` = Sunday, `1` = Monday).  Construction fails
(`Except.error`) exactly when `locate_zone` throws. -/
def construct (db : String → Option String) (firstDow : Nat) (cfg : Config) :
    Except String ClockState :=
  match parseTimezones db cfg with
  | Except.error e => Except.error e
  | Except.ok zs =>
    let zones := if zs.isEmpty then [none] else zs
    let trimmed := removeSpaces cfg.tooltipFormat.asString
    let isCal := cfg.tooltipFormat.isString &&
      containsSub trimmed ("\x7b" ++ kCalendarPlaceholder ++ "\x7d")
    let isTzList := cfg.tooltipFormat.isString &&
      containsSub trimmed ("\x7b" ++ kTimezonedTimeListPlaceholder ++ "\x7d")
    let shiftInit : Int :=
      if isCal && cfg.onScrollCalendar.isInt then cfg.onScrollCalendar.asInt else 0
    let fmtWeeks :=
      if cfg.formatCalendarWeeks.isString then
        replaceAll cfg.formatCalendarWeeks.asString "\x7b\x7d"
          (if firstDow = 1 then "\x7b:%V\x7d" else "\x7b:%U\x7d")
      else ""
    let weeksPad := if cfg.formatCalendarWeeks.isString then stripLen fmtWeeks else 0
    let fmtCal :=
      if cfg.formatCalendar.isString then cfg.formatCalendar.asString else "\x7b\x7d"
    Except.ok
      { time_zones_ := zones, current_time_zone_idx_ := 0,
        is_calendar_in_tooltip_ := isCal, is_timezoned_list_in_tooltip_ := isTzList,
        calendar_shift_init_ := shiftInit, calendar_shift_ := 0,
        fmt_str_weeks_ := fmtWeeks, fmt_weeks_left_pad_ := weeksPad,
        fmt_str_calendar_ := fmtCal,
        calendar_cached_ymd_ := none, calendar_cached_text_ := "" }

/-- `Clock::current_timezone`: the selected zone, or the local zone
(`date::current_zone()`, injected as `localZone`) when the selected entry
is the `nullptr` placeholder. -/
def current_timezone (localZone : String) (st : ClockState) : String :=
  match st.time_zones_.getD st.current_time_zone_idx_ none with
  | some z => z
  | none => localZone

/- ---------------------------------------------------------------------
Scroll handling (`Clock::handleScroll`).
--------------------------------------------------------------------- -/

/-- `Clock::handleScroll`, restricted to the state this module owns.
When user scroll commands are configured the module defers to
`AModule::handleScroll` (external code), leaving this state unchanged.
The `update()` call at the end only refreshes the rendered label/tooltip
(and thereby the calendar cache), which is modelled separately by
`calendar_text`. -/
def handleScroll (cfg : Config) (st : ClockState) (dir : ScrollDir) : ClockState :=
  if cfg.onScrollUp.isString || cfg.onScrollDown.isString then st
  else if st.calendar_shift_init_ ≠ 0 then
    if dir = ScrollDir.UP then
      { st with calendar_shift_ := st.calendar_shift_ + st.calendar_shift_init_ }
    else
      { st with calendar_shift_ := st.calendar_shift_ - st.calendar_shift_init_ }
  else if dir ≠ ScrollDir.UP ∧ dir ≠ ScrollDir.DOWN then st
  else if st.time_zones_.length = 1 then st
  else
    let nr_zones := st.time_zones_.length
    if dir = ScrollDir.UP then
      let new_idx := st.current_time_zone_idx_ + 1
      { st with current_time_zone_idx_ := if new_idx = nr_zones then 0 else new_idx }
    else
      { st with current_time_zone_idx_ :=
          if st.current_time_zone_idx_ = 0 then nr_zones - 1
          else st.current_time_zone_idx_ - 1 }

/-- `n` successive scroll events in direction `dir`. -/
def scrollN (cfg : Config) (dir : ScrollDir) : Nat → ClockState → ClockState
  | 0, st => st
  | n + 1, st => handleScroll cfg (scrollN cfg dir n st) dir

/- ---------------------------------------------------------------------
Calendar text generation (`Clock::calendar_text`, `Clock::weekdays_header`).
--------------------------------------------------------------------- -/

/-- One chunk written to the output stream by `calendar_text`.  The
constructors record which source branch emitted the chunk: `raw` for
fixed separators and padding, `header` for the weekday header line
(which ends in a newline of its own), `weekCell` for a week-number cell
`fmt::format(fmt_str_weeks_, print_wd)` (the chrono formatting itself is
an injected service, so the token keeps the format string and the
`sys_days` count of `print_wd`), `dayCell` for a day cell, whose flag
tells whether the "today" branch produced it, and `newline` for the
row separator. -/
inductive Token where
  | raw : String → Token
  | header : String → Token
  | weekCell : String → Int → Token
  | dayCell : Bool → String → Token
  | newline : Token
  deriving Repr, DecidableEq

/-- The cell written for the current day: the configured `today-format`
applied to `date::format("%e", d)`, or the default markup wrapper. -/
def todayCellStr (todayFormat : JVal) (d : Nat) : String :=
  if todayFormat.isString then fmtApply todayFormat.asString (fmtE d)
  else "<b><u>" ++ fmtE d ++ "</u></b>"

/-- `calendar-weeks-pos` resolution (lines 212-220). -/
def weeksPosOf (j : JVal) : WeeksSide :=
  if j.isString then
    if j.asString = "left" then WeeksSide.LEFT
    else if j.asString = "right" then WeeksSide.RIGHT
    else WeeksSide.HIDDEN
  else WeeksSide.HIDDEN

/-- The inputs of the day-grid loop of `calendar_text`, gathered from the
state, the configuration and the date being rendered. -/
structure CalParams where
  fmtWeeks : String
  fmtCalendar : String
  todayFormat : JVal
  weeksPos : WeeksSide
  currDay : Nat
  firstDow : Nat
  lastDay : Nat
  y : Int
  m : Nat

/-- The unsigned computation `6 - (wd.c_encoding() - first_dow.c_encoding())`
of line 269: both subtractions are on C++ `unsigned`, so they wrap modulo
`2^32`.  For `wd < first` the result lands in `[7,12]` and the
`0 < e && e < 7` guard rejects it. -/
def trailingEmpty (wd first : Nat) : Nat :=
  (6 + 4294967296 - ((wd + 4294967296 - first) % 4294967296)) % 4294967296

/-- State carried through the day loop: the running weekday `wd`, the
`sys_days` count of `print_wd`, and the tokens emitted so far. -/
structure LoopSt where
  wd : Nat
  printWd : Int
  toks : List Token
  deriving Repr, DecidableEq

/-- The separator / row-break tokens emitted at the top of the loop body
for day `d` (lines 241-255): a single space within a week; at a week
boundary (other than day 1) the optional right week-number cell, the
newline, and the optional left week-number cell of the new row. -/
def sepTokens (p : CalParams) (wd : Nat) (printWd : Int) (d : Nat) : List Token :=
  if wd ≠ p.firstDow then [Token.raw " "]
  else if d ≠ 1 then
    (if p.weeksPos = WeeksSide.RIGHT then
      [Token.raw " ", Token.weekCell p.fmtWeeks printWd] else [])
    ++ [Token.newline]
    ++ (if p.weeksPos = WeeksSide.LEFT then
      [Token.weekCell p.fmtWeeks (daysFromCivil p.y p.m d), Token.raw " "] else [])
  else []

/-- The day cell for day `d` (lines 257-266). -/
def dayCellTok (p : CalParams) (d : Nat) : Token :=
  if d = p.currDay then Token.dayCell true (todayCellStr p.todayFormat d)
  else Token.dayCell false (fmtApply p.fmtCalendar (fmtE d))

/-- The trailing tokens emitted after the day cell on the last day with
right-aligned week numbers (lines 268-275): padding for the missing
cells (subject to the unsigned-wrap guard) and the last week-number
cell. -/
def tailTokens (p : CalParams) (wd : Nat) (printWd2 : Int) (d : Nat) : List Token :=
  if p.weeksPos = WeeksSide.RIGHT ∧ d = p.lastDay then
    (let e2 := trailingEmpty wd p.firstDow
     (if 0 < e2 ∧ e2 < 7 then [Token.raw (spaces (e2 * 3))] else [])
     ++ [Token.raw " ", Token.weekCell p.fmtWeeks printWd2])
  else []

/-- The body of the day loop of `calendar_text` (lines 240-276) for day
`d`, emitting tokens in the source's order: the separator / row break,
then the day cell, then the trailing right-week-number block. -/
def calStep (p : CalParams) (s : LoopSt) (d : Nat) : LoopSt :=
  let printWd2 : Int :=
    if s.wd = p.firstDow ∧ d ≠ 1 then daysFromCivil p.y p.m d else s.printWd
  { wd := (s.wd + 1) % 7, printWd := printWd2,
    toks := s.toks ++ (sepTokens p s.wd s.printWd d
      ++ ([dayCellTok p d] ++ tailTokens p s.wd printWd2 d)) }

/-- The day loop run over days `1..n`, starting from
`print_wd = sys_days(ym/1)` and its weekday, with no tokens emitted. -/
def dayLoop (p : CalParams) (n : Nat) : LoopSt :=
  (List.range' 1 n).foldl (calStep p)
    { wd := weekdayFromDays (daysFromCivil p.y p.m 1),
      printWd := daysFromCivil p.y p.m 1, toks := [] }

/-- `empty_days` of line 227: cells before day 1 in the first row. -/
def emptyDays (p : CalParams) : Nat :=
  weekdayDiff (weekdayFromDays (daysFromCivil p.y p.m 1)) p.firstDow

/-- Tokens emitted between the header and the day loop (lines 229-236):
the first row's left week-number cell, then the first row's leading
padding (`empty_days * 3 - 1` spaces — one column is left to the loop's
separator space). -/
def preToks (p : CalParams) : List Token :=
  (if p.weeksPos = WeeksSide.LEFT then
    [Token.weekCell p.fmtWeeks (daysFromCivil p.y p.m 1), Token.raw " "] else [])
  ++ (if 0 < emptyDays p then [Token.raw (spaces (emptyDays p * 3 - 1))] else [])

/-- The whole day-grid section: leading tokens plus the day loop over the
full month. -/
def daySection (p : CalParams) : List Token :=
  preToks p ++ (dayLoop p p.lastDay).toks

/-- Truncation loop of `weekdays_header`: drop trailing characters while
the display width exceeds two columns.  `ustring_clen` is repository code
outside the verified sources; modelled from the spec: it returns the
display-column count of the string, which for the single-column-script
abbreviations considered here is the character count. -/
def truncLoop : Nat → List Char → List Char
  | 0, cs => cs
  | fuel + 1, cs => if 2 < cs.length then truncLoop fuel cs.dropLast else cs

/-- Truncate a weekday abbreviation to at most 2 display columns. -/
def truncAbbrev (s : String) : String := String.mk (truncLoop s.length s.data)

/-- `Clock::weekdays_header`: seven abbreviated weekday names starting at
`first`, each truncated to two columns and left-padded to width two,
separated by single spaces, ending with a newline; optionally wrapped in
`format-calendar-weekdays`.  `abbr` is the locale's `%a` formatting
service. -/
def weekdays_header (abbr : Nat → String) (fmtWeekdays : JVal) (first : Nat) : String :=
  let cells := (List.range 7).map (fun i =>
    let t := truncAbbrev (abbr ((first + i) % 7))
    (if i = 0 then "" else " ") ++ spaces (2 - t.length) ++ t)
  let res := String.join cells ++ "\n"
  if fmtWeekdays.isString then fmtApply fmtWeekdays.asString res else res

/-- The `curr_day` computation of lines 197-199: day `0` (matching no
cell) when a calendar shift is configured and currently applied,
otherwise the day of the rendered date. -/
def currDayOf (st : ClockState) (ymd : YMD) : Nat :=
  if st.calendar_shift_init_ ≠ 0 ∧ st.calendar_shift_ ≠ 0 then 0 else ymd.d

/-- The day-loop parameters for rendering `ymd` in state `st`. -/
def mkParams (cfg : Config) (firstDow : Nat) (st : ClockState) (ymd : YMD) : CalParams :=
  { fmtWeeks := st.fmt_str_weeks_, fmtCalendar := st.fmt_str_calendar_,
    todayFormat := cfg.todayFormat,
    weeksPos := weeksPosOf cfg.calendarWeeksPos,
    currDay := currDayOf st ymd,
    firstDow := firstDow, lastDay := lastDayOfMonth ymd.y ymd.m,
    y := ymd.y, m := ymd.m }

/-- The full token stream of one `calendar_text` grid construction:
header padding (left week numbers), the weekday header, then the day
section. -/
def clockCalendarTokens (abbr : Nat → String) (cfg : Config) (firstDow : Nat)
    (st : ClockState) (ymd : YMD) : List Token :=
  let p := mkParams cfg firstDow st ymd
  (if p.weeksPos = WeeksSide.LEFT then
    [Token.raw (spaces (3 + st.fmt_weeks_left_pad_))] else [])
  ++ [Token.header (weekdays_header abbr cfg.formatCalendarWeekdays firstDow)]
  ++ daySection p

/-- Rendering of one token; `weekSvc` is the injected chrono formatting
service interpreting `fmt_str_weeks_` at a `sys_days` value. -/
def renderToken (weekSvc : String → Int → String) : Token → String
  | Token.raw s => s
  | Token.header s => s
  | Token.weekCell f z => weekSvc f z
  | Token.dayCell _ s => s
  | Token.newline => "\n"

/-- The string written to the stream: concatenation of the rendered
tokens. -/
def renderTokens (weekSvc : String → Int → String) (ts : List Token) : String :=
  String.join (ts.map (renderToken weekSvc))

/-- External services consumed by `calendar_text`: the configuration and
the locale / formatting services. -/
structure CalCtx where
  cfg : Config
  firstDow : Nat
  abbr : Nat → String
  weekSvc : String → Int → String

/-- The local civil date of a local timestamp (seconds):
`date::year_month_day{date::floor<date::days>(local time)}`. -/
def ymdOfLocal (zlocal : Int) : YMD := civilFromDays (zlocal.fdiv 86400)

/-- `Clock::calendar_text` on a zoned time whose local representation is
`zlocal` seconds: the one-entry cache keyed by the civil date is
consulted first; on a miss the grid is rebuilt, returned and cached. -/
def calendar_text (ctx : CalCtx) (st : ClockState) (zlocal : Int) :
    String × ClockState :=
  let ymd := ymdOfLocal zlocal
  if st.calendar_cached_ymd_ = some ymd then (st.calendar_cached_text_, st)
  else
    let result :=
      renderTokens ctx.weekSvc (clockCalendarTokens ctx.abbr ctx.cfg ctx.firstDow st ymd)
    (result, { st with calendar_cached_ymd_ := some ymd, calendar_cached_text_ := result })

/- ---------------------------------------------------------------------
Observations on token streams (row structure and cell counts).
--------------------------------------------------------------------- -/

/-- Is this token a day cell? -/
def isDayTok : Token → Bool
  | Token.dayCell _ _ => true
  | _ => false

/-- Is this token a day cell rendered through the "today" branch? -/
def isTodayTok : Token → Bool
  | Token.dayCell b _ => b
  | _ => false

/-- Is this token the row separator? -/
def isNlTok : Token → Bool
  | Token.newline => true
  | _ => false

/-- Folding step splitting a token stream into rows at `newline`
tokens. -/
def rowsSplitAux (acc : List (List Token) × List Token) (t : Token) :
    List (List Token) × List Token :=
  match t with
  | Token.newline => (acc.1 ++ [acc.2], [])
  | _ => (acc.1, acc.2 ++ [t])

/-- The rows of a token stream (the final, possibly incomplete row
included). -/
def rowsSplit (ts : List Token) : List (List Token) :=
  let a := ts.foldl rowsSplitAux ([], [])
  a.1 ++ [a.2]

/-- The day rows of one generated grid (everything after the header),
split at the emitted newlines. -/
def calendarDayRows (cfg : Config) (firstDow : Nat) (st : ClockState) (ymd : YMD) :
    List (List Token) :=
  rowsSplit (daySection (mkParams cfg firstDow st ymd))

/-- The row-splitting fold state after processing the first `n` days of
the grid (completed rows, current row). -/
def rowsState (p : CalParams) (n : Nat) : List (List Token) × List Token :=
  (preToks p ++ (dayLoop p n).toks).foldl rowsSplitAux ([], [])

/- ---------------------------------------------------------------------
Concrete instances used to witness the theorems below.
--------------------------------------------------------------------- -/

/-- Extract the state of a successful construction (fallback otherwise). -/
def exOk (e : Except String ClockState) (dflt : ClockState) : ClockState :=
  match e with
  | Except.ok s => s
  | Except.error _ => dflt

/-- English `%a` weekday abbreviations (the C / English locale service). -/
def engAbbr : Nat → String
  | 0 => "Sun" | 1 => "Mon" | 2 => "Tue" | 3 => "Wed"
  | 4 => "Thu" | 5 => "Fri" | _ => "Sat"

/-- A trivial chrono-formatting service (never consulted when week
numbers are hidden). -/
def weekSvc0 : String → Int → String := fun _ _ => ""

/-- The state produced by constructing with an all-default configuration:
one local-time placeholder zone, default formats, no shift. -/
def st0 : ClockState :=
  { time_zones_ := [none], current_time_zone_idx_ := 0,
    is_calendar_in_tooltip_ := false, is_timezoned_list_in_tooltip_ := false,
    calendar_shift_init_ := 0, calendar_shift_ := 0,
    fmt_str_weeks_ := "", fmt_weeks_left_pad_ := 0,
    fmt_str_calendar_ := "\x7b\x7d",
    calendar_cached_ymd_ := none, calendar_cached_text_ := "" }

/-- A one-zone timezone database. -/
def dbA : String → Option String := fun s => if s = "Asia/Tokyo" then some s else none

/-- Configuration with one empty and one resolvable timezone entry. -/
def cfgA : Config :=
  { Config.nullCfg with timezones := JVal.jarr [JVal.jstr "", JVal.jstr "Asia/Tokyo"] }

/-- The state constructed from `cfgA`. -/
def cstA : ClockState := exOk (construct dbA 0 cfgA) st0

/-- Configuration whose single timezone entry is not in the database. -/
def cfgBad : Config :=
  { Config.nullCfg with timezones := JVal.jarr [JVal.jstr "Mars/Phobos"] }

/-- Configuration with a `format-calendar-weeks` string. -/
def cfgW : Config :=
  { Config.nullCfg with formatCalendarWeeks := JVal.jstr "W\x7b\x7d" }

/-- The state constructed from `cfgW` with a Monday-first locale. -/
def cstW : ClockState := exOk (construct dbA 1 cfgW) st0

/-- A state with a configured calendar shift amount of one month and an
accumulated shift of one month. -/
def stSh : ClockState := { st0 with calendar_shift_init_ := 1, calendar_shift_ := 1 }

/-- A three-zone state (placeholder plus two fixed zones). -/
def stMulti : ClockState :=
  { st0 with time_zones_ := [none, some "Asia/Tokyo", some "Europe/Oslo"] }

/-- Rendering context with default configuration, Sunday-first locale and
English abbreviations. -/
def ctx0 : CalCtx :=
  { cfg := Config.nullCfg, firstDow := 0, abbr := engAbbr, weekSvc := weekSvc0 }

/- =====================================================================
Theorems.
===================================================================== -/

theorem handleScroll_shift_init (cfg : Config) (st : ClockState) (dir : ScrollDir) :
    (handleScroll cfg st dir).calendar_shift_init_ = st.calendar_shift_init_ := by
  unfold handleScroll
  split_ifs <;> rfl

theorem handleScroll_zones (cfg : Config) (st : ClockState) (dir : ScrollDir) :
    (handleScroll cfg st dir).time_zones_ = st.time_zones_ := by
  unfold handleScroll
  split_ifs <;> rfl

theorem scrollN_shift_init (cfg : Config) (dir : ScrollDir) (n : Nat) (st : ClockState) :
    (scrollN cfg dir n st).calendar_shift_init_ = st.calendar_shift_init_ := by
  induction n with
  | zero => rfl
  | succ n ih => simp [scrollN, handleScroll_shift_init, ih]

theorem scrollN_succ_inner (cfg : Config) (dir : ScrollDir) (n : Nat) (st : ClockState) :
    scrollN cfg dir (n + 1) st = scrollN cfg dir n (handleScroll cfg st dir) := by
  induction n generalizing st with
  | zero => rfl
  | succ n ih =>
    show handleScroll cfg (scrollN cfg dir (n + 1) st) dir
        = handleScroll cfg (scrollN cfg dir n (handleScroll cfg st dir)) dir
    rw [ih]

/-- Normal form of `handleScroll` in timezone-cycle mode. -/
theorem handleScroll_cycle (cfg : Config) (st : ClockState) (dir : ScrollDir)
    (h1 : cfg.onScrollUp.isString = false) (h2 : cfg.onScrollDown.isString = false)
    (h3 : st.calendar_shift_init_ = 0) :
    handleScroll cfg st dir =
      if dir ≠ ScrollDir.UP ∧ dir ≠ ScrollDir.DOWN then st
      else if st.time_zones_.length = 1 then st
      else if dir = ScrollDir.UP then
        { st with current_time_zone_idx_ :=
            if st.current_time_zone_idx_ + 1 = st.time_zones_.length then 0
            else st.current_time_zone_idx_ + 1 }
      else
        { st with current_time_zone_idx_ :=
            if st.current_time_zone_idx_ = 0 then st.time_zones_.length - 1
            else st.current_time_zone_idx_ - 1 } := by
  unfold handleScroll
  rw [h1, h2, h3]
  simp only [Bool.or_self, Bool.false_eq_true, if_false, ne_eq, not_true_eq_false,
    not_false_eq_true]

/-- A scroll-down undoes a scroll-up in timezone-cycle mode, at every
state. -/
theorem scroll_down_up (cfg : Config) (st : ClockState)
    (h1 : cfg.onScrollUp.isString = false) (h2 : cfg.onScrollDown.isString = false)
    (h3 : st.calendar_shift_init_ = 0) :
    handleScroll cfg (handleScroll cfg st ScrollDir.UP) ScrollDir.DOWN = st := by
  obtain ⟨tz, idx, b1, b2, si, sh, fw, pad, fc, cy, ct⟩ := st
  simp only at h3
  subst h3
  rw [handleScroll_cycle cfg _ ScrollDir.UP h1 h2 rfl]
  by_cases hlen : tz.length = 1
  · simp [hlen]
    rw [handleScroll_cycle cfg _ ScrollDir.DOWN h1 h2 rfl]
    simp [hlen]
  · simp [hlen]
    rw [handleScroll_cycle cfg _ ScrollDir.DOWN h1 h2 rfl]
    simp [hlen]
    (try split_ifs) <;> omega

/-- C2: in timezone-cycle mode (no user scroll commands, no configured
calendar shift), `n` scroll-ups followed by `n` scroll-downs return the
timezone selection index to its original value; and with exactly one
configured zone every scroll event leaves the state (hence the index)
unchanged. -/
theorem C2_timezone_cycle (cfg : Config) (st : ClockState) (n : Nat)
    (h1 : cfg.onScrollUp.isString = false) (h2 : cfg.onScrollDown.isString = false)
    (h3 : st.calendar_shift_init_ = 0) :
    (scrollN cfg ScrollDir.DOWN n (scrollN cfg ScrollDir.UP n st)).current_time_zone_idx_
      = st.current_time_zone_idx_
    ∧ (st.time_zones_.length = 1 → ∀ dir, handleScroll cfg st dir = st) := by
  constructor
  · have key : ∀ m (s : ClockState), s.calendar_shift_init_ = 0 →
        scrollN cfg ScrollDir.DOWN m (scrollN cfg ScrollDir.UP m s) = s := by
      intro m
      induction m with
      | zero => intro s _; rfl
      | succ m ih =>
        intro s hs
        have hup : scrollN cfg ScrollDir.UP (m + 1) s
            = handleScroll cfg (scrollN cfg ScrollDir.UP m s) ScrollDir.UP := rfl
        rw [hup, scrollN_succ_inner,
          scroll_down_up cfg _ h1 h2 (by rw [scrollN_shift_init]; exact hs)]
        exact ih s hs
    rw [key n st h3]
  · intro hlen dir
    unfold handleScroll
    simp only [h1, h2, Bool.or_self, h3, ne_eq, not_true_eq_false]
    cases dir <;> simp [hlen]

/-- C2 witness: five ups then five downs on a three-zone state. -/
theorem C2_timezone_cycle_witness :
    (scrollN Config.nullCfg ScrollDir.DOWN 5
        (scrollN Config.nullCfg ScrollDir.UP 5 stMulti)).current_time_zone_idx_
      = stMulti.current_time_zone_idx_ :=
  (C2_timezone_cycle Config.nullCfg stMulti 5 rfl rfl rfl).1

/-- C5: after construction, and after any scroll event from a state with
a valid index, the timezone list is non-empty and the selection index is
a valid index into it. -/
theorem C5_index_invariant :
    (∀ db f cfg st, construct db f cfg = Except.ok st →
        0 < st.time_zones_.length ∧ st.current_time_zone_idx_ < st.time_zones_.length)
    ∧ (∀ cfg st dir, st.current_time_zone_idx_ < st.time_zones_.length →
        0 < (handleScroll cfg st dir).time_zones_.length ∧
          (handleScroll cfg st dir).current_time_zone_idx_
            < (handleScroll cfg st dir).time_zones_.length) := by
  constructor
  · intro db f cfg st h
    unfold construct at h
    cases hp : parseTimezones db cfg with
    | error e => rw [hp] at h; exact absurd h (by simp)
    | ok zs =>
      rw [hp] at h
      simp only [Except.ok.injEq] at h
      rw [← h]
      cases zs <;> simp
  · intro cfg st dir hidx
    obtain ⟨tz, idx, b1, b2, si, sh, fw, pad, fc, cy, ct⟩ := st
    simp only at hidx
    unfold handleScroll
    split_ifs <;> refine ⟨?_, ?_⟩ <;> (try simp) <;> (try split_ifs) <;> omega

/-- C5 witness: the constructed two-zone state and one scroll on it. -/
theorem C5_index_invariant_witness :
    (0 < cstA.time_zones_.length
      ∧ cstA.current_time_zone_idx_ < cstA.time_zones_.length)
    ∧ (0 < (handleScroll cfgA cstA ScrollDir.UP).time_zones_.length
      ∧ (handleScroll cfgA cstA ScrollDir.UP).current_time_zone_idx_
          < (handleScroll cfgA cstA ScrollDir.UP).time_zones_.length) :=
  ⟨C5_index_invariant.1 dbA 0 cfgA cstA rfl,
   C5_index_invariant.2 cfgA cstA ScrollDir.UP
     (C5_index_invariant.1 dbA 0 cfgA cstA rfl).2⟩

/-- C8: with a non-zero configured calendar shift amount and no user
scroll commands, scroll-up adds the configured delta to the calendar
shift and scroll-down subtracts it. -/
theorem C8_calendar_shift_scroll (cfg : Config) (st : ClockState)
    (h1 : cfg.onScrollUp.isString = false) (h2 : cfg.onScrollDown.isString = false)
    (h3 : st.calendar_shift_init_ ≠ 0) :
    handleScroll cfg st ScrollDir.UP
        = { st with calendar_shift_ := st.calendar_shift_ + st.calendar_shift_init_ }
    ∧ handleScroll cfg st ScrollDir.DOWN
        = { st with calendar_shift_ := st.calendar_shift_ - st.calendar_shift_init_ } := by
  unfold handleScroll
  simp [h1, h2, h3]

/-- C8 witness: one up and one down on a state with shift amount 1. -/
theorem C8_calendar_shift_scroll_witness :
    handleScroll Config.nullCfg stSh ScrollDir.UP
        = { stSh with calendar_shift_ := stSh.calendar_shift_ + stSh.calendar_shift_init_ }
    ∧ handleScroll Config.nullCfg stSh ScrollDir.DOWN
        = { stSh with calendar_shift_ := stSh.calendar_shift_ - stSh.calendar_shift_init_ } :=
  C8_calendar_shift_scroll Config.nullCfg stSh rfl rfl (by decide)

/-- C10: in calendar-shift mode, a scroll event that is neither up nor
down falls into the `else` branch and subtracts the configured delta,
exactly like scroll-down. -/
theorem C10_other_scroll_subtracts (cfg : Config) (st : ClockState) (dir : ScrollDir)
    (h1 : cfg.onScrollUp.isString = false) (h2 : cfg.onScrollDown.isString = false)
    (h3 : st.calendar_shift_init_ ≠ 0)
    (h4 : dir ≠ ScrollDir.UP) (_h5 : dir ≠ ScrollDir.DOWN) :
    handleScroll cfg st dir
        = { st with calendar_shift_ := st.calendar_shift_ - st.calendar_shift_init_ }
    ∧ handleScroll cfg st dir = handleScroll cfg st ScrollDir.DOWN := by
  unfold handleScroll
  simp [h1, h2, h3, h4]

theorem parseZoneList_ok_length (db : String → Option String) (js : List JVal)
    (zs : List (Option String)) (h : parseZoneList db js = Except.ok zs) :
    zs.length = js.length := by
  induction js generalizing zs with
  | nil =>
    unfold parseZoneList at h
    simp only [Except.ok.injEq] at h
    subst h
    rfl
  | cons a as ih =>
    unfold parseZoneList at h
    cases ha : parseZoneEntry db a with
    | error e => rw [ha] at h; simp at h
    | ok z =>
      rw [ha] at h
      cases hr : parseZoneList db as with
      | error e => rw [hr] at h; simp at h
      | ok zs2 =>
        rw [hr] at h
        simp only [Except.ok.injEq] at h
        rw [← h]
        simp [ih zs2 hr]

theorem parseZoneList_ok_get (db : String → Option String) (js : List JVal)
    (zs : List (Option String)) (h : parseZoneList db js = Except.ok zs)
    (i : Nat) (j : JVal) (hij : js[i]? = some j) :
    ∃ z, zs[i]? = some z ∧ parseZoneEntry db j = Except.ok z := by
  induction js generalizing zs i with
  | nil => simp at hij
  | cons a as ih =>
    unfold parseZoneList at h
    cases ha : parseZoneEntry db a with
    | error e => rw [ha] at h; simp at h
    | ok z =>
      rw [ha] at h
      cases hr : parseZoneList db as with
      | error e => rw [hr] at h; simp at h
      | ok zs2 =>
        rw [hr] at h
        simp only [Except.ok.injEq] at h
        rw [← h]
        cases i with
        | zero =>
          simp only [List.getElem?_cons_zero, Option.some.injEq] at hij
          rw [← hij]
          exact ⟨z, by simp, ha⟩
        | succ i =>
          simp only [List.getElem?_cons_succ] at hij
          obtain ⟨z2, hz2, he2⟩ := ih zs2 hr i hij
          exact ⟨z2, by simpa using hz2, he2⟩

theorem parseZoneList_err_mem (db : String → Option String) (j : JVal) (js : List JVal)
    (hj : j ∈ js) (e : String) (he : parseZoneEntry db j = Except.error e)
    (zs : List (Option String)) : parseZoneList db js ≠ Except.ok zs := by
  induction js generalizing zs with
  | nil => simp at hj
  | cons a as ih =>
    intro h
    unfold parseZoneList at h
    cases ha : parseZoneEntry db a with
    | error e2 => rw [ha] at h; simp at h
    | ok z =>
      rw [ha] at h
      cases hr : parseZoneList db as with
      | error e2 => rw [hr] at h; simp at h
      | ok zs2 =>
        cases List.mem_cons.mp hj with
        | inl heq => rw [heq] at he; rw [he] at ha; simp at ha
        | inr hmem => exact ih hmem zs2 hr

theorem current_timezone_placeholder (lz : String) (st : ClockState) (i : Nat)
    (h : st.time_zones_[i]? = some none) :
    current_timezone lz { st with current_time_zone_idx_ := i } = lz := by
  unfold current_timezone
  have hg : ({ st with current_time_zone_idx_ := i } : ClockState).time_zones_.getD i none
      = none := by
    rw [List.getD_eq_getElem?_getD]
    simp only
    rw [h]
    rfl
  rw [hg]

theorem parseTimezones_array (db : String → Option String) (cfg : Config)
    (hA : cfg.timezones.isArray = true) (hne : ¬cfg.timezones.elems.isEmpty) :
    parseTimezones db cfg = parseZoneList db cfg.timezones.elems := by
  unfold parseTimezones
  rw [hA]
  simp [hne]

theorem construct_err_of_bad_entry (db : String → Option String) (f : Nat) (cfg : Config)
    (name : String) (hA : cfg.timezones.isArray = true)
    (hmem : JVal.jstr name ∈ cfg.timezones.elems)
    (hne : name ≠ "") (hdb : db name = none) :
    ∀ st, construct db f cfg ≠ Except.ok st := by
  intro st h
  have hentry : parseZoneEntry db (JVal.jstr name) = Except.error name := by
    simp [parseZoneEntry, JVal.isString, JVal.asString, hne, locate_zone, hdb, Except.map]
  have hnonempty : ¬cfg.timezones.elems.isEmpty := by
    intro he
    rw [List.isEmpty_iff] at he
    rw [he] at hmem
    simp at hmem
  unfold construct at h
  rw [parseTimezones_array db cfg hA hnonempty] at h
  cases hr : parseZoneList db cfg.timezones.elems with
  | error e => rw [hr] at h; simp at h
  | ok zs => exact parseZoneList_err_mem db _ _ hmem name hentry zs hr

theorem construct_placeholder (db : String → Option String) (f : Nat) (cfg : Config)
    (st : ClockState) (h : construct db f cfg = Except.ok st)
    (hA : cfg.timezones.isArray = true) (i : Nat) (j : JVal)
    (hij : cfg.timezones.elems[i]? = some j)
    (hj : j.isString = false ∨ j.asString = "") :
    st.time_zones_[i]? = some none := by
  have hok : parseZoneEntry db j = Except.ok none := by
    unfold parseZoneEntry
    rcases hj with hj | hj <;> simp [hj]
  have hnonempty : ¬cfg.timezones.elems.isEmpty := by
    intro he
    rw [List.isEmpty_iff] at he
    rw [he] at hij
    simp at hij
  unfold construct at h
  rw [parseTimezones_array db cfg hA hnonempty] at h
  cases hr : parseZoneList db cfg.timezones.elems with
  | error e => rw [hr] at h; simp at h
  | ok zs =>
    rw [hr] at h
    obtain ⟨z, hzi, hez⟩ := parseZoneList_ok_get db _ zs hr i j hij
    rw [hok] at hez
    simp only [Except.ok.injEq] at hez
    rw [← hez] at hzi
    have hlen := parseZoneList_ok_length db _ zs hr
    have hi : i < cfg.timezones.elems.length := by
      by_contra hge
      rw [List.getElem?_eq_none (by omega)] at hij
      simp at hij
    have hzs : zs.isEmpty = false := by
      cases zs with
      | nil => simp only [List.length_nil] at hlen; omega
      | cons _ _ => rfl
    simp only [Except.ok.injEq] at h
    rw [← h]
    simp [hzs]
    exact hzi

/-- C1 (corrected): empty or non-string timezone entries are recorded as
the use-local placeholder and render local time, and the list parse
otherwise succeeds; but a *non-empty* timezone name that the database
cannot resolve makes `locate_zone` throw and construction fail — it does
not degrade to local time. -/
theorem C1_amended_placeholders :
    (∀ (db : String → Option String) (j : JVal),
        j.isString = false ∨ j.asString = "" → parseZoneEntry db j = Except.ok none)
    ∧ (∀ (lz : String) (st : ClockState) (i : Nat), st.time_zones_[i]? = some none →
        current_timezone lz { st with current_time_zone_idx_ := i } = lz)
    ∧ (∀ (db : String → Option String) (f : Nat) (cfg : Config) (name : String),
        cfg.timezones.isArray = true →
        JVal.jstr name ∈ cfg.timezones.elems → name ≠ "" → db name = none →
        ∀ st, construct db f cfg ≠ Except.ok st)
    ∧ (∀ (db : String → Option String) (f : Nat) (cfg : Config) (st : ClockState),
        construct db f cfg = Except.ok st →
        cfg.timezones.isArray = true →
        ∀ (i : Nat) (j : JVal), cfg.timezones.elems[i]? = some j →
          j.isString = false ∨ j.asString = "" → st.time_zones_[i]? = some none) := by
  refine ⟨?_, ?_, ?_, ?_⟩
  · intro db j hj
    unfold parseZoneEntry
    rcases hj with hj | hj <;> simp [hj]
  · exact current_timezone_placeholder
  · exact fun db f cfg name hA hmem hne hdb => construct_err_of_bad_entry db f cfg name hA hmem hne hdb
  · exact fun db f cfg st h hA i j hij hj => construct_placeholder db f cfg st h hA i j hij hj

/-- C1 counterexample to the claim as stated: a configured timezone name
absent from the database makes construction fail with the thrown
`locate_zone` error instead of succeeding with a local-time
placeholder. -/
theorem C1_counterexample : construct dbA 0 cfgBad = Except.error "Mars/Phobos" := rfl

/-- C1 witness: the amended statements at concrete inputs. -/
theorem C1_amended_placeholders_witness :
    parseZoneEntry dbA (JVal.jstr "") = Except.ok none
    ∧ current_timezone "LOCAL" { cstA with current_time_zone_idx_ := 0 } = "LOCAL"
    ∧ construct dbA 0 cfgBad ≠ Except.ok cstA
    ∧ cstA.time_zones_[0]? = some none :=
  ⟨C1_amended_placeholders.1 dbA (JVal.jstr "") (Or.inr rfl),
   C1_amended_placeholders.2.1 "LOCAL" cstA 0 (by decide),
   C1_amended_placeholders.2.2.1 dbA 0 cfgBad "Mars/Phobos" rfl (List.mem_singleton.mpr rfl)
     (by decide) rfl cstA,
   C1_amended_placeholders.2.2.2 dbA 0 cfgA cstA rfl rfl 0 (JVal.jstr "") rfl (Or.inr rfl)⟩

/-- C3: rendering twice within the same civil day (same cache key)
returns the byte-identical cached string and leaves the state unchanged;
the first call's result is exactly what sits in the one-entry cache. -/
theorem C3_calendar_cache (ctx : CalCtx) (st : ClockState) (t1 t2 : Int)
    (h : ymdOfLocal t1 = ymdOfLocal t2) :
    (calendar_text ctx ((calendar_text ctx st t1).2) t2).1 = (calendar_text ctx st t1).1
    ∧ (calendar_text ctx ((calendar_text ctx st t1).2) t2).2 = (calendar_text ctx st t1).2
    ∧ ((calendar_text ctx st t1).2).calendar_cached_ymd_ = some (ymdOfLocal t1)
    ∧ ((calendar_text ctx st t1).2).calendar_cached_text_ = (calendar_text ctx st t1).1 := by
  unfold calendar_text
  by_cases hc : st.calendar_cached_ymd_ = some (ymdOfLocal t1)
  · have hc2 : st.calendar_cached_ymd_ = some (ymdOfLocal t2) := by rw [hc, h]
    simp [hc, hc2, h]
  · have hc2 : ¬st.calendar_cached_ymd_ = some (ymdOfLocal t2) := by rw [← h]; exact hc
    simp only [hc, hc2, if_false]
    simp [← h]

/-- C3 witness: two timestamps one hour apart on 1970-01-01. -/
theorem C3_calendar_cache_witness :
    (calendar_text ctx0 ((calendar_text ctx0 st0 3600).2) 7200).1
        = (calendar_text ctx0 st0 3600).1
    ∧ (calendar_text ctx0 ((calendar_text ctx0 st0 3600).2) 7200).2
        = (calendar_text ctx0 st0 3600).2
    ∧ ((calendar_text ctx0 st0 3600).2).calendar_cached_ymd_ = some (ymdOfLocal 3600)
    ∧ ((calendar_text ctx0 st0 3600).2).calendar_cached_text_
        = (calendar_text ctx0 st0 3600).1 :=
  C3_calendar_cache ctx0 st0 3600 7200 (by decide)

theorem weekdayFromDays_lt (z : Int) : weekdayFromDays z < 7 := by
  unfold weekdayFromDays
  by_cases hz : -4 ≤ z
  · rw [if_pos hz]
    have h1 : 0 ≤ (z + 4).tmod 7 := Int.tmod_nonneg 7 (by omega)
    have h2 : (z + 4).tmod 7 < 7 := Int.tmod_lt_of_pos _ (by norm_num)
    omega
  · rw [if_neg hz]
    have h1 : 0 ≤ (-(z + 5)).tmod 7 := Int.tmod_nonneg 7 (by omega)
    have h2 : (-(z + 5)).tmod 7 < 7 := Int.tmod_lt_of_pos _ (by norm_num)
    have h3 : (-(z + 5)).tmod 7 = -((z + 5).tmod 7) := by
      rw [Int.tmod_def, Int.tmod_def, Int.neg_tdiv]
      ring
    omega

theorem dayLoop_succ (p : CalParams) (n : Nat) :
    dayLoop p (n + 1) = calStep p (dayLoop p n) (n + 1) := by
  unfold dayLoop
  rw [List.range'_concat, List.foldl_append]
  simp [List.foldl, Nat.add_comm]

theorem dayLoop_wd (p : CalParams) (n : Nat) :
    (dayLoop p n).wd = (weekdayFromDays (daysFromCivil p.y p.m 1) + n) % 7 := by
  induction n with
  | zero =>
    have := weekdayFromDays_lt (daysFromCivil p.y p.m 1)
    simp [dayLoop, List.range']
    omega
  | succ n ih =>
    rw [dayLoop_succ]
    unfold calStep
    simp only
    rw [ih]
    omega

theorem calStep_toks (p : CalParams) (s : LoopSt) (d : Nat) :
    (calStep p s d).toks = s.toks ++ (sepTokens p s.wd s.printWd d
      ++ ([dayCellTok p d] ++ tailTokens p s.wd
          (if s.wd = p.firstDow ∧ d ≠ 1 then daysFromCivil p.y p.m d else s.printWd) d)) := rfl

/-- Counting tokens other than day cells and newlines in a separator
block gives zero. -/
theorem sepTokens_countP (p : CalParams) (wd : Nat) (pw : Int) (d : Nat) (q : Token → Bool)
    (hr : ∀ s, q (Token.raw s) = false) (hw : ∀ fs z, q (Token.weekCell fs z) = false)
    (hn : q Token.newline = false) :
    (sepTokens p wd pw d).countP q = 0 := by
  unfold sepTokens
  split_ifs <;>
    simp [List.countP_cons, List.countP_nil, List.countP_append, hr, hw, hn]

theorem tailTokens_countP (p : CalParams) (wd : Nat) (pw : Int) (d : Nat) (q : Token → Bool)
    (hr : ∀ s, q (Token.raw s) = false) (hw : ∀ fs z, q (Token.weekCell fs z) = false) :
    (tailTokens p wd pw d).countP q = 0 := by
  unfold tailTokens
  split_ifs <;>
    simp [List.countP_cons, List.countP_nil, List.countP_append, hr, hw] <;>
    (intro a _ _ ha; subst ha; exact hr _)

theorem countP_today_calStep (p : CalParams) (s : LoopSt) (d : Nat) :
    ((calStep p s d).toks).countP isTodayTok
      = s.toks.countP isTodayTok + (if d = p.currDay then 1 else 0) := by
  rw [calStep_toks]
  simp only [List.countP_append, List.countP_cons, List.countP_nil]
  rw [sepTokens_countP p _ _ _ isTodayTok (fun _ => rfl) (fun _ _ => rfl) rfl,
    tailTokens_countP p _ _ _ isTodayTok (fun _ => rfl) (fun _ _ => rfl)]
  unfold dayCellTok
  split_ifs <;> simp_all [isTodayTok]

theorem countP_day_calStep (p : CalParams) (s : LoopSt) (d : Nat) :
    ((calStep p s d).toks).countP isDayTok = s.toks.countP isDayTok + 1 := by
  rw [calStep_toks]
  simp only [List.countP_append, List.countP_cons, List.countP_nil]
  rw [sepTokens_countP p _ _ _ isDayTok (fun _ => rfl) (fun _ _ => rfl) rfl,
    tailTokens_countP p _ _ _ isDayTok (fun _ => rfl) (fun _ _ => rfl)]
  unfold dayCellTok
  by_cases hd : d = p.currDay
  · rw [if_pos hd]
    simp [isDayTok]
  · rw [if_neg hd]
    simp [isDayTok]

theorem dayLoop_todayCount (p : CalParams) (n : Nat) :
    ((dayLoop p n).toks).countP isTodayTok
      = if 1 ≤ p.currDay ∧ p.currDay ≤ n then 1 else 0 := by
  induction n with
  | zero =>
    simp only [dayLoop, List.range', List.foldl_nil, List.countP_nil]
    split_ifs with hh
    · omega
    · rfl
  | succ n ih =>
    rw [dayLoop_succ, countP_today_calStep, ih]
    split_ifs <;> omega

theorem sepTokens_no_dayCell (p : CalParams) (wd : Nat) (pw : Int) (d : Nat)
    (b : Bool) (s' : String) : Token.dayCell b s' ∉ sepTokens p wd pw d := by
  unfold sepTokens
  split_ifs <;> simp

theorem tailTokens_no_dayCell (p : CalParams) (wd : Nat) (pw : Int) (d : Nat)
    (b : Bool) (s' : String) : Token.dayCell b s' ∉ tailTokens p wd pw d := by
  unfold tailTokens
  split_ifs <;> simp

theorem calStep_todayCell_str (p : CalParams) (s : LoopSt) (d : Nat) (s' : String)
    (h : Token.dayCell true s' ∈ (calStep p s d).toks) :
    Token.dayCell true s' ∈ s.toks ∨ (d = p.currDay ∧ s' = todayCellStr p.todayFormat d) := by
  rw [calStep_toks] at h
  simp only [List.mem_append] at h
  rcases h with h | h | h | h
  · exact Or.inl h
  · exact absurd h (sepTokens_no_dayCell p _ _ _ _ _)
  · unfold dayCellTok at h
    split_ifs at h with hd
    · simp only [List.mem_singleton, Token.dayCell.injEq] at h
      exact Or.inr ⟨hd, h.2⟩
    · simp at h
  · exact absurd h (tailTokens_no_dayCell p _ _ _ _ _)

theorem dayLoop_todayCell_str (p : CalParams) (n : Nat) (s' : String)
    (h : Token.dayCell true s' ∈ (dayLoop p n).toks) :
    s' = todayCellStr p.todayFormat p.currDay := by
  induction n with
  | zero => simp [dayLoop, List.range'] at h
  | succ n ih =>
    rw [dayLoop_succ] at h
    rcases calStep_todayCell_str p _ _ _ h with h2 | ⟨hd, hs⟩
    · exact ih h2
    · rw [hs, hd]

theorem preToks_no_today (p : CalParams) (s' : String) :
    ¬ Token.dayCell true s' ∈ preToks p := by
  unfold preToks
  split_ifs <;> simp

theorem countP_today_preToks (p : CalParams) : (preToks p).countP isTodayTok = 0 := by
  unfold preToks
  split_ifs <;> simp [isTodayTok, List.countP_cons, List.countP_nil, List.countP_append]

/-- C4 (amended): a generated grid contains exactly one "today"-wrapped
day cell — the cell of the rendered date's day — when no calendar shift
is applied; when a shift is applied (`calendar_shift_init_ ≠ 0` and
`calendar_shift_ ≠ 0`), `curr_day` is set to day 0 and *no* cell gets the
today wrapper.  Every today-wrapped cell carries the configured
`today-format` (default `<b><u>…</u></b>`) applied to the `%e` day
text. -/
theorem C4_amended_today_highlight (ab : Nat → String) (cfg : Config) (f : Nat)
    (st : ClockState) (ymd : YMD)
    (hd1 : 1 ≤ ymd.d) (hd2 : ymd.d ≤ lastDayOfMonth ymd.y ymd.m) :
    (clockCalendarTokens ab cfg f st ymd).countP isTodayTok
      = (if st.calendar_shift_init_ ≠ 0 ∧ st.calendar_shift_ ≠ 0 then 0 else 1)
    ∧ ∀ s, Token.dayCell true s ∈ clockCalendarTokens ab cfg f st ymd →
        s = todayCellStr cfg.todayFormat (currDayOf st ymd) := by
  constructor
  · unfold clockCalendarTokens daySection
    simp only [List.countP_append, dayLoop_todayCount, countP_today_preToks]
    have hpadz : (if (mkParams cfg f st ymd).weeksPos = WeeksSide.LEFT then
        [Token.raw (spaces (3 + st.fmt_weeks_left_pad_))] else []).countP isTodayTok = 0 := by
      split_ifs <;> rfl
    rw [hpadz]
    have hh : ([Token.header (weekdays_header ab cfg.formatCalendarWeekdays f)]).countP
        isTodayTok = 0 := rfl
    rw [hh]
    have hcurr : (mkParams cfg f st ymd).currDay
        = if st.calendar_shift_init_ ≠ 0 ∧ st.calendar_shift_ ≠ 0 then 0 else ymd.d := rfl
    have hlast : (mkParams cfg f st ymd).lastDay = lastDayOfMonth ymd.y ymd.m := rfl
    rw [hcurr, hlast]
    by_cases hsh : st.calendar_shift_init_ ≠ 0 ∧ st.calendar_shift_ ≠ 0
    · rw [if_pos hsh, if_pos hsh]
      simp
    · rw [if_neg hsh, if_neg hsh, if_pos ⟨hd1, hd2⟩]
  · intro s hs
    unfold clockCalendarTokens daySection at hs
    simp only [List.mem_append] at hs
    rcases hs with (hs | hs) | (hs | hs)
    · revert hs
      split_ifs <;> simp
    · simp at hs
    · exact absurd hs (preToks_no_today _ s)
    · have := dayLoop_todayCell_str (mkParams cfg f st ymd) _ s hs
      rw [this]
      rfl

/-- C4 counterexample to the claim as stated: with a configured shift of
one month currently applied, the January 2024 grid contains zero
today-wrapped cells, not exactly one. -/
theorem C4_counterexample :
    (clockCalendarTokens engAbbr Config.nullCfg 0 stSh ⟨2024, 1, 15⟩).countP isTodayTok = 0 := by
  rfl

/-- C4 witness: the unshifted January 2024 grid. -/
theorem C4_amended_today_highlight_witness :
    (clockCalendarTokens engAbbr Config.nullCfg 0 st0 ⟨2024, 1, 15⟩).countP isTodayTok
      = (if st0.calendar_shift_init_ ≠ 0 ∧ st0.calendar_shift_ ≠ 0 then 0 else 1) :=
  (C4_amended_today_highlight engAbbr Config.nullCfg 0 st0 ⟨2024, 1, 15⟩
    (by decide) (by decide)).1

theorem sepTokens_weekCell (p : CalParams) (wd : Nat) (pw : Int) (d : Nat)
    (fs : String) (z : Int) (h : Token.weekCell fs z ∈ sepTokens p wd pw d) :
    fs = p.fmtWeeks := by
  unfold sepTokens at h
  split_ifs at h <;> simp at h <;> tauto

theorem tailTokens_weekCell (p : CalParams) (wd : Nat) (pw : Int) (d : Nat)
    (fs : String) (z : Int) (h : Token.weekCell fs z ∈ tailTokens p wd pw d) :
    fs = p.fmtWeeks := by
  unfold tailTokens at h
  split_ifs at h <;> simp at h <;> tauto

theorem calStep_weekCell (p : CalParams) (s : LoopSt) (d : Nat) (fs : String) (z : Int)
    (h : Token.weekCell fs z ∈ (calStep p s d).toks) :
    Token.weekCell fs z ∈ s.toks ∨ fs = p.fmtWeeks := by
  rw [calStep_toks] at h
  simp only [List.mem_append] at h
  rcases h with h | h | h | h
  · exact Or.inl h
  · exact Or.inr (sepTokens_weekCell p _ _ _ fs z h)
  · exfalso
    unfold dayCellTok at h
    split_ifs at h <;> simp at h
  · exact Or.inr (tailTokens_weekCell p _ _ _ fs z h)

theorem dayLoop_weekCell (p : CalParams) (n : Nat) (fs : String) (z : Int)
    (h : Token.weekCell fs z ∈ (dayLoop p n).toks) : fs = p.fmtWeeks := by
  induction n with
  | zero => simp [dayLoop, List.range'] at h
  | succ n ih =>
    rw [dayLoop_succ] at h
    rcases calStep_weekCell p _ _ fs z h with h2 | h2
    · exact ih h2
    · exact h2

theorem preToks_weekCell (p : CalParams) (fs : String) (z : Int)
    (h : Token.weekCell fs z ∈ preToks p) : fs = p.fmtWeeks := by
  unfold preToks at h
  simp only [List.mem_append] at h
  rcases h with h | h
  · revert h
    split_ifs <;> simp <;> tauto
  · revert h
    split_ifs <;> simp

/-- C7: with `format-calendar-weeks` configured, construction substitutes
the placeholder with the ISO week directive `%V` when the resolved first
day of week is Monday and with `%U` otherwise, fixing `fmt_str_weeks_`
once; and every week-number cell of every generated grid is formatted
with exactly that string. -/
theorem C7_week_number_directive (db : String → Option String) (f : Nat) (cfg : Config)
    (st : ClockState) (hok : construct db f cfg = Except.ok st)
    (hs : cfg.formatCalendarWeeks.isString = true) :
    st.fmt_str_weeks_ = replaceAll cfg.formatCalendarWeeks.asString "\x7b\x7d"
        (if f = 1 then "\x7b:%V\x7d" else "\x7b:%U\x7d")
    ∧ ∀ (ab : Nat → String) (ymd : YMD) (fs : String) (z : Int),
        Token.weekCell fs z ∈ clockCalendarTokens ab cfg f st ymd →
          fs = st.fmt_str_weeks_ := by
  constructor
  · unfold construct at hok
    cases hp : parseTimezones db cfg with
    | error e => rw [hp] at hok; simp at hok
    | ok zs =>
      rw [hp] at hok
      simp only [Except.ok.injEq] at hok
      rw [← hok]
      simp [hs]
  · intro ab ymd fs z h
    unfold clockCalendarTokens daySection at h
    simp only [List.mem_append] at h
    rcases h with (h | h) | (h | h)
    · revert h
      split_ifs <;> simp
    · simp at h
    · exact preToks_weekCell _ fs z h
    · exact dayLoop_weekCell _ _ fs z h

/-- C7 witness: `format-calendar-weeks = "W\x7b\x7d"` under a
Monday-first locale yields the `%V` substitution. -/
theorem C7_week_number_directive_witness :
    cstW.fmt_str_weeks_ = replaceAll cfgW.formatCalendarWeeks.asString "\x7b\x7d"
        (if 1 = 1 then "\x7b:%V\x7d" else "\x7b:%U\x7d") :=
  (C7_week_number_directive dbA 1 cfgW cstW rfl rfl).1

set_option maxRecDepth 8000

/-- C9 counterexample to the claim as stated: for January 15 2024
(default formats, weeks hidden, English locale, Sunday first) the day
section does *not* begin with exactly 3 spaces before the digit 1 — it
begins with 4 spaces (2 from the leading-cell padding, 1 loop separator,
1 from the `%e` width). -/
theorem C9_counterexample :
    ((calendar_text ctx0 st0 (19737 * 86400)).1.drop 21).take 4 ≠ "   1"
    ∧ ((calendar_text ctx0 st0 (19737 * 86400)).1.drop 21).take 5 = "    1" := by
  constructor
  · decide
  · decide

/-- C9 (corrected): for every day `d` of January 2024 other than day 1,
the calendar generated with default formats, hidden week numbers, the
English locale and Sunday as first day of week has the header row
`"Su Mo Tu We Th Fr Sa"` and a first day row that begins with exactly 4
space characters before the digit 1 (2 padding characters for the one
empty leading cell, the day loop's separator space, and the `%e`-width
space of the day cell) — not 3 as claimed; and for day 1 itself the
day-1 cell is wrapped in the default today markup, so markup, not
spaces, precedes the digit. -/
theorem C9_jan2024_layout (d : Nat) (h1 : 2 ≤ d) (h2 : d < 32) :
    ((calendar_text ctx0 st0 ((19722 + (d : Int)) * 86400)).1).take 21
        = "Su Mo Tu We Th Fr Sa\n"
    ∧ (((calendar_text ctx0 st0 ((19722 + (d : Int)) * 86400)).1).drop 21).take 5
        = "    1"
    ∧ (((calendar_text ctx0 st0 (19723 * 86400)).1).drop 21).take 11
        = "   <b><u> 1" := by
  have H : ∀ x : Nat, x < 30 →
      ((calendar_text ctx0 st0 ((19724 + (x : Int)) * 86400)).1).take 21
          = "Su Mo Tu We Th Fr Sa\n"
      ∧ (((calendar_text ctx0 st0 ((19724 + (x : Int)) * 86400)).1).drop 21).take 5
          = "    1" := by decide
  have harg : ((19724 + ((d - 2 : Nat) : Int)) * 86400) = ((19722 + (d : Int)) * 86400) := by
    have : ((d - 2 : Nat) : Int) = (d : Int) - 2 := by omega
    rw [this]
    ring
  have H2 := H (d - 2) (by omega)
  rw [harg] at H2
  exact ⟨H2.1, H2.2, by decide⟩

/-- C9 witness: the corrected layout at January 15 2024. -/
theorem C9_jan2024_layout_witness :
    ((calendar_text ctx0 st0 ((19722 + (15 : Int)) * 86400)).1).take 21
        = "Su Mo Tu We Th Fr Sa\n"
    ∧ (((calendar_text ctx0 st0 ((19722 + (15 : Int)) * 86400)).1).drop 21).take 5
        = "    1"
    ∧ (((calendar_text ctx0 st0 (19723 * 86400)).1).drop 21).take 11
        = "   <b><u> 1" :=
  C9_jan2024_layout 15 (by decide) (by decide)

/-- C10 witness: a sideways scroll on a state with shift amount 1. -/
theorem C10_other_scroll_subtracts_witness :
    handleScroll Config.nullCfg stSh ScrollDir.LEFT
        = { stSh with calendar_shift_ := stSh.calendar_shift_ - stSh.calendar_shift_init_ }
    ∧ handleScroll Config.nullCfg stSh ScrollDir.LEFT
        = handleScroll Config.nullCfg stSh ScrollDir.DOWN :=
  C10_other_scroll_subtracts Config.nullCfg stSh ScrollDir.LEFT rfl rfl
    (by decide) (by decide) (by decide)

theorem preToks_countP (p : CalParams) (q : Token → Bool)
    (hr : ∀ s, q (Token.raw s) = false) (hw : ∀ fs z, q (Token.weekCell fs z) = false) :
    (preToks p).countP q = 0 := by
  unfold preToks
  split_ifs <;>
    simp [List.countP_append, List.countP_cons, List.countP_nil, hr, hw]

/-- A token block without newlines only extends the current row. -/
theorem rowsSplitAux_no_nl (ts : List Token) :
    ts.countP isNlTok = 0 →
      ∀ acc : List (List Token) × List Token,
        ts.foldl rowsSplitAux acc = (acc.1, acc.2 ++ ts) := by
  induction ts with
  | nil =>
    intro _ acc
    simp
  | cons t ts ih =>
    intro hts acc
    rw [List.countP_cons] at hts
    by_cases hb : isNlTok t = true
    · rw [if_pos hb] at hts
      omega
    · rw [if_neg hb] at hts
      have hts2 : ts.countP isNlTok = 0 := by omega
      rw [List.foldl_cons, ih hts2 (rowsSplitAux acc t)]
      cases t with
      | newline => simp [isNlTok] at hb
      | raw s => simp [rowsSplitAux]
      | header s => simp [rowsSplitAux]
      | weekCell fs z => simp [rowsSplitAux]
      | dayCell b s => simp [rowsSplitAux]

/-- A block of the shape `l1 ++ newline :: l2` (no other newlines)
closes the current row after `l1` and starts a new row `l2`. -/
theorem foldl_rowsSplitAux_block (acc : List (List Token) × List Token)
    (l1 l2 : List Token) (h1 : l1.countP isNlTok = 0) (h2 : l2.countP isNlTok = 0) :
    (l1 ++ (Token.newline :: l2)).foldl rowsSplitAux acc
      = (acc.1 ++ [acc.2 ++ l1], l2) := by
  rw [List.foldl_append, rowsSplitAux_no_nl l1 h1 acc, List.foldl_cons,
    rowsSplitAux_no_nl l2 h2 _]
  simp [rowsSplitAux]

theorem sepTokens_nl_count_zero (p : CalParams) (wd : Nat) (pw : Int) (d : Nat)
    (hcase : wd ≠ p.firstDow ∨ d = 1) :
    (sepTokens p wd pw d).countP isNlTok = 0 := by
  unfold sepTokens
  rcases hcase with hc | hc
  · rw [if_pos hc]
    rfl
  · by_cases hw : wd ≠ p.firstDow
    · rw [if_pos hw]
      rfl
    · rw [if_neg hw, if_neg (fun h => h hc)]
      rfl

theorem sepTokens_nl_shape (p : CalParams) (wd : Nat) (pw : Int) (d : Nat)
    (h1 : wd = p.firstDow) (h2 : d ≠ 1) :
    sepTokens p wd pw d
      = (if p.weeksPos = WeeksSide.RIGHT then
          [Token.raw " ", Token.weekCell p.fmtWeeks pw] else [])
        ++ (Token.newline
          :: (if p.weeksPos = WeeksSide.LEFT then
            [Token.weekCell p.fmtWeeks (daysFromCivil p.y p.m d), Token.raw " "] else [])) := by
  unfold sepTokens
  rw [if_neg (fun hh => hh h1), if_pos h2]
  simp

theorem dayCellTok_not_nl (p : CalParams) (d : Nat) : isNlTok (dayCellTok p d) = false := by
  unfold dayCellTok
  split_ifs <;> rfl

theorem dayCellTok_isDay (p : CalParams) (d : Nat) : isDayTok (dayCellTok p d) = true := by
  unfold dayCellTok
  split_ifs <;> rfl

theorem lastDayOfMonth_pos (y : Int) (m : Nat) : 1 ≤ lastDayOfMonth y m := by
  unfold lastDayOfMonth
  split_ifs <;> omega

theorem emptyDays_lt (p : CalParams) : emptyDays p < 7 := by
  unfold emptyDays weekdayDiff
  exact Nat.mod_lt _ (by norm_num)

theorem rowsState_zero (p : CalParams) : rowsState p 0 = ([], preToks p) := by
  unfold rowsState
  have h0 : (dayLoop p 0).toks = [] := rfl
  rw [h0, List.append_nil,
    rowsSplitAux_no_nl (preToks p)
      (preToks_countP p isNlTok (fun _ => rfl) (fun _ _ => rfl)) ([], [])]
  simp

theorem rowsState_succ (p : CalParams) (n : Nat) :
    ∃ pw pw2, rowsState p (n + 1)
      = (sepTokens p ((dayLoop p n).wd) pw (n + 1)
          ++ ([dayCellTok p (n + 1)]
            ++ tailTokens p ((dayLoop p n).wd) pw2 (n + 1))).foldl
          rowsSplitAux (rowsState p n) := by
  refine ⟨(dayLoop p n).printWd,
    (if (dayLoop p n).wd = p.firstDow ∧ n + 1 ≠ 1 then daysFromCivil p.y p.m (n + 1)
     else (dayLoop p n).printWd), ?_⟩
  unfold rowsState
  rw [dayLoop_succ, calStep_toks, ← List.append_assoc, List.foldl_append]

/-- Invariant of the row-splitting fold after `n` processed days: the
number of completed rows is `(empty + n - 1) / 7`, every completed row
`i` holds `7 * (i + 1) - max (7 * i) empty` day cells, and the current
row holds the remaining processed day cells. -/
theorem rowsState_inv (p : CalParams) (hf : p.firstDow < 7) (n : Nat) :
    (rowsState p n).1.length = (emptyDays p + n - 1) / 7
    ∧ (∀ i, i < (rowsState p n).1.length →
        (((rowsState p n).1[i]?).getD []).countP isDayTok
          = 7 * (i + 1) - max (7 * i) (emptyDays p))
    ∧ ((rowsState p n).2).countP isDayTok
        = emptyDays p + n - max (7 * ((emptyDays p + n - 1) / 7)) (emptyDays p) := by
  have hE : emptyDays p < 7 := emptyDays_lt p
  have hwd0 : weekdayFromDays (daysFromCivil p.y p.m 1) < 7 := weekdayFromDays_lt _
  have hEdef : emptyDays p
      = (weekdayFromDays (daysFromCivil p.y p.m 1) + 7 - p.firstDow) % 7 := rfl
  induction n with
  | zero =>
    rw [rowsState_zero]
    refine ⟨by simp; omega, ?_, ?_⟩
    · intro i hi
      simp at hi
    · simp [preToks_countP p isDayTok (fun _ => rfl) (fun _ _ => rfl)]
  | succ n ih =>
    obtain ⟨hlen, hget, hcur⟩ := ih
    obtain ⟨pw, pw2, heq⟩ := rowsState_succ p n
    rw [dayLoop_wd] at heq
    have hA : (if p.weeksPos = WeeksSide.RIGHT then
        [Token.raw " ", Token.weekCell p.fmtWeeks pw] else []).countP isNlTok = 0 := by
      split_ifs <;> rfl
    have hAd : (if p.weeksPos = WeeksSide.RIGHT then
        [Token.raw " ", Token.weekCell p.fmtWeeks pw] else []).countP isDayTok = 0 := by
      split_ifs <;> rfl
    have hB : (if p.weeksPos = WeeksSide.LEFT then
        [Token.weekCell p.fmtWeeks (daysFromCivil p.y p.m (n + 1)), Token.raw " "]
        else []).countP isNlTok = 0 := by
      split_ifs <;> rfl
    have hBd : (if p.weeksPos = WeeksSide.LEFT then
        [Token.weekCell p.fmtWeeks (daysFromCivil p.y p.m (n + 1)), Token.raw " "]
        else []).countP isDayTok = 0 := by
      split_ifs <;> rfl
    have hC : (tailTokens p ((weekdayFromDays (daysFromCivil p.y p.m 1) + n) % 7) pw2
        (n + 1)).countP isNlTok = 0 :=
      tailTokens_countP p _ _ _ isNlTok (fun _ => rfl) (fun _ _ => rfl)
    have hCd : (tailTokens p ((weekdayFromDays (daysFromCivil p.y p.m 1) + n) % 7) pw2
        (n + 1)).countP isDayTok = 0 :=
      tailTokens_countP p _ _ _ isDayTok (fun _ => rfl) (fun _ _ => rfl)
    by_cases hc : (weekdayFromDays (daysFromCivil p.y p.m 1) + n) % 7 = p.firstDow
        ∧ n + 1 ≠ 1
    · -- a row break happens before day n+1
      obtain ⟨hc1, hc2⟩ := hc
      have hdvd : (emptyDays p + n) % 7 = 0 := by omega
      have hn1 : 1 ≤ n := by omega
      rw [sepTokens_nl_shape p _ pw (n + 1) hc1 hc2] at heq
      simp only [List.append_assoc, List.cons_append, List.singleton_append] at heq
      rw [foldl_rowsSplitAux_block (rowsState p n) _ _ hA
        (by simp [List.countP_append, List.countP_cons, hB, hC, dayCellTok_not_nl])] at heq
      refine ⟨?_, ?_, ?_⟩
      · rw [heq]
        simp only [List.length_append, List.length_singleton, hlen]
        omega
      · intro i hi
        rw [heq] at hi ⊢
        simp only [List.length_append, List.length_singleton, hlen] at hi
        rw [List.getElem?_append]
        by_cases hilt : i < (rowsState p n).1.length
        · rw [if_pos hilt]
          exact hget i hilt
        · rw [if_neg hilt]
          have hil : i = (rowsState p n).1.length := by omega
          have hig : i - (rowsState p n).1.length = 0 := by omega
          rw [hig]
          simp only [List.getElem?_cons_zero, Option.getD_some]
          rw [List.countP_append, hcur, hAd]
          have hieq : i = (emptyDays p + n - 1) / 7 := by omega
          omega
      · rw [heq]
        simp only [List.countP_append, List.countP_cons, List.countP_nil, hBd, hCd,
          dayCellTok_isDay, if_pos]
        omega
    · -- no row break: the block only extends the current row
      have hcase : (weekdayFromDays (daysFromCivil p.y p.m 1) + n) % 7 ≠ p.firstDow
          ∨ n + 1 = 1 := by tauto
      have hsep0 : (sepTokens p ((weekdayFromDays (daysFromCivil p.y p.m 1) + n) % 7) pw
          (n + 1)).countP isNlTok = 0 := sepTokens_nl_count_zero p _ pw (n + 1) hcase
      have hsepd : (sepTokens p ((weekdayFromDays (daysFromCivil p.y p.m 1) + n) % 7) pw
          (n + 1)).countP isDayTok = 0 :=
        sepTokens_countP p _ _ _ isDayTok (fun _ => rfl) (fun _ _ => rfl) rfl
      rw [rowsSplitAux_no_nl _
        (by simp [List.countP_append, List.countP_cons, hsep0, hC, dayCellTok_not_nl])
        (rowsState p n)] at heq
      have hndvd : (emptyDays p + n) % 7 ≠ 0 ∨ n = 0 := by
        by_cases hn0 : n = 0
        · exact Or.inr hn0
        · left
          have hne : ¬((weekdayFromDays (daysFromCivil p.y p.m 1) + n) % 7 = p.firstDow) := by
            intro hx
            exact hc ⟨hx, by omega⟩
          omega
      have hstep : (emptyDays p + (n + 1) - 1) / 7 = (emptyDays p + n - 1) / 7 := by
        rcases hndvd with h | h <;> omega
      refine ⟨?_, ?_, ?_⟩
      · rw [heq, hlen, hstep]
      · intro i hi
        rw [heq] at hi ⊢
        exact hget i hi
      · rw [heq]
        simp only [List.countP_append, List.countP_cons, List.countP_nil, hsepd, hCd,
          dayCellTok_isDay, if_pos, hcur]
        rw [hstep]
        rcases hndvd with h | h <;> omega

/-- C6: for every month and year rendered, the day grid after the header
has exactly `(empty + last + 6) / 7` rows (the ceiling of
`(leading empty cells + number of days) / 7`); row `i` holds exactly the
days whose slot positions fall in week `i`, i.e.
`min (7*(i+1)) (empty+last) - max (7*i) empty` day cells; and counting
the `empty` leading slots of the first row and the vacant trailing slots
of the final row, every row spans exactly 7 day slots. -/
theorem C6_grid_shape (cfg : Config) (f : Nat) (st : ClockState) (ymd : YMD)
    (hf : f < 7) :
    (calendarDayRows cfg f st ymd).length
      = (emptyDays (mkParams cfg f st ymd) + lastDayOfMonth ymd.y ymd.m + 6) / 7
    ∧ (∀ i (hi : i < (calendarDayRows cfg f st ymd).length),
        ((calendarDayRows cfg f st ymd).get ⟨i, hi⟩).countP isDayTok
          = min (7 * (i + 1))
              (emptyDays (mkParams cfg f st ymd) + lastDayOfMonth ymd.y ymd.m)
            - max (7 * i) (emptyDays (mkParams cfg f st ymd)))
    ∧ (∀ i (hi : i < (calendarDayRows cfg f st ymd).length),
        (if i = 0 then emptyDays (mkParams cfg f st ymd) else 0)
          + ((calendarDayRows cfg f st ymd).get ⟨i, hi⟩).countP isDayTok
          + (7 * (i + 1) - min (7 * (i + 1))
              (emptyDays (mkParams cfg f st ymd) + lastDayOfMonth ymd.y ymd.m)) = 7) := by
  have hE : emptyDays (mkParams cfg f st ymd) < 7 := emptyDays_lt _
  have hL1 : 1 ≤ lastDayOfMonth ymd.y ymd.m := lastDayOfMonth_pos ymd.y ymd.m
  have hrows : calendarDayRows cfg f st ymd
      = (rowsState (mkParams cfg f st ymd) (lastDayOfMonth ymd.y ymd.m)).1
        ++ [(rowsState (mkParams cfg f st ymd) (lastDayOfMonth ymd.y ymd.m)).2] := rfl
  obtain ⟨hlen, hget, hcur⟩ :=
    rowsState_inv (mkParams cfg f st ymd) (by exact hf) (lastDayOfMonth ymd.y ymd.m)
  have hlenTot : (calendarDayRows cfg f st ymd).length
      = (emptyDays (mkParams cfg f st ymd) + lastDayOfMonth ymd.y ymd.m + 6) / 7 := by
    rw [hrows]
    simp only [List.length_append, List.length_singleton, hlen]
    omega
  have hkey : ∀ i, i < (calendarDayRows cfg f st ymd).length →
      ∀ hi : i < (calendarDayRows cfg f st ymd).length,
      ((calendarDayRows cfg f st ymd).get ⟨i, hi⟩).countP isDayTok
        = min (7 * (i + 1))
            (emptyDays (mkParams cfg f st ymd) + lastDayOfMonth ymd.y ymd.m)
          - max (7 * i) (emptyDays (mkParams cfg f st ymd)) := by
    intro i _ hi
    have hgi : (calendarDayRows cfg f st ymd)[i]?
        = some ((calendarDayRows cfg f st ymd).get ⟨i, hi⟩) := by
      rw [List.get_eq_getElem, List.getElem?_eq_getElem hi]
    have hgd : ((calendarDayRows cfg f st ymd).get ⟨i, hi⟩).countP isDayTok
        = (((calendarDayRows cfg f st ymd)[i]?).getD []).countP isDayTok := by
      rw [hgi]
      rfl
    have hi2 : i < (rowsState (mkParams cfg f st ymd)
        (lastDayOfMonth ymd.y ymd.m)).1.length + 1 := by
      have := hi
      rw [hrows] at this
      simpa using this
    rw [hgd, hrows, List.getElem?_append]
    by_cases hilt : i < (rowsState (mkParams cfg f st ymd)
        (lastDayOfMonth ymd.y ymd.m)).1.length
    · rw [if_pos hilt]
      rw [hget i hilt]
      have hib : i < (emptyDays (mkParams cfg f st ymd)
          + lastDayOfMonth ymd.y ymd.m - 1) / 7 := by
        rw [← hlen]
        exact hilt
      omega
    · rw [if_neg hilt]
      have hig : i - (rowsState (mkParams cfg f st ymd)
          (lastDayOfMonth ymd.y ymd.m)).1.length = 0 := by omega
      rw [hig]
      simp only [List.getElem?_cons_zero, Option.getD_some]
      rw [hcur]
      have hiR : i = (emptyDays (mkParams cfg f st ymd)
          + lastDayOfMonth ymd.y ymd.m - 1) / 7 := by
        rw [← hlen]
        omega
      omega
  refine ⟨hlenTot, ?_, ?_⟩
  · intro i hi
    exact hkey i hi hi
  · intro i hi
    have h1 := hkey i hi hi
    have h2 : i < (emptyDays (mkParams cfg f st ymd)
        + lastDayOfMonth ymd.y ymd.m + 6) / 7 := by
      rw [← hlenTot]
      exact hi
    by_cases hi0 : i = 0
    · rw [if_pos hi0]
      omega
    · rw [if_neg hi0]
      omega

/-- C6 witness: the January 2024 grid with Sunday as first day of the
week has ceil((1 + 31) / 7) = 5 day rows. -/
theorem C6_grid_shape_witness :
    (calendarDayRows Config.nullCfg 0 st0 ⟨2024, 1, 15⟩).length
      = (emptyDays (mkParams Config.nullCfg 0 st0 ⟨2024, 1, 15⟩)
          + lastDayOfMonth (2024 : Int) 1 + 6) / 7 :=
  (C6_grid_shape Config.nullCfg 0 st0 ⟨2024, 1, 15⟩ (by decide)).1

end Clock
